import Mathlib

/-!
Shallow embedding of `src/streamlit_app.py`: the exchange-fallback ticker
resolver and normalizer `get_stock_data` (lines 30–67), the memoization
wrapper the spec attributes to `@st.cache_data` (line 30), and the chart
renderer `plot_stock_chart` (lines 97–130).

Python values that can appear in the provider's `info` mapping are modelled
by `PyVal` (`None`, a number, a string); numbers (Python int/float) are
modelled as rationals. The provider call `yf.Ticker(sym).info` either raises
or returns such a mapping (`ProviderResp`), and a provider is a function from
symbols to responses. The resolver is instrumented with the list of symbols
for which the provider was called, in order, so that probing order and
short-circuiting are provable facts about the embedding.
-/

/-- A Python value in the provider's `info` mapping: `None`, a number
(int/float, modelled as a rational), or a string. -/
inductive PyVal where
  | none
  | num (q : ℚ)
  | str (s : String)
deriving DecidableEq

/-- The provider's `info` mapping: a Python dict from string keys to values,
modelled as an association list (keys unique, read first-match). -/
abbrev Info := List (String × PyVal)

/-- Outcome of the provider call `yf.Ticker(sym).info`: it raises, or it
returns the info mapping. -/
inductive ProviderResp where
  | raise
  | payload (info : Info)

/-- The external market-data provider, as a function from the queried symbol
to the outcome of the call. -/
abbrev Provider := String → ProviderResp

/-- Python truthiness of a `PyVal` (`None`, `0` and `""` are falsy). -/
def PyVal.truthy : PyVal → Bool
  | .none => false
  | .num q => q != 0
  | .str s => s != ""

/-- Python `x or y`. -/
def pyOr (x y : PyVal) : PyVal :=
  if x.truthy then x else y

/-- Python `info.get(k, d)`. -/
def dictGet (info : Info) (k : String) (d : PyVal) : PyVal :=
  match info.lookup k with
  | Option.some v => v
  | Option.none => d

/-- Python `float(v)`. A number converts to itself; `None` raises
(`TypeError`). A string is modelled as raising: in `get_stock_data` every
`float(...)` argument has passed through `or 0`, so the strings that reach
`float` are junk like `"N/A"`, on which Python raises `ValueError`; numeric
strings, which Python would parse, do not occur in the numeric provider
fields being modelled. -/
def pyFloat : PyVal → Except Unit ℚ
  | .num q => .ok q
  | _ => .error ()

/-- Python truncation toward zero, as in `int()` applied to a float. -/
def truncToward0 (q : ℚ) : ℤ :=
  if 0 ≤ q then ⌊q⌋ else ⌈q⌉

/-- Python `int(v)`, under the same modelling of strings as `pyFloat`. -/
def pyInt : PyVal → Except Unit ℤ
  | .num q => .ok (truncToward0 q)
  | _ => .error ()

/-- Python `str(v)`: `str(None)` is `"None"`, a number prints as its decimal
form (modelled as `toString` of the rational), a string is itself. -/
def pyStr : PyVal → String
  | .none => "None"
  | .num q => toString q
  | .str s => s

/-- The fixed record returned on a successful resolution (the dict built at
lines 47–64). -/
structure NormalizedQuote where
  symbol : String
  exchange : String
  current_price : ℚ
  high_52week : ℚ
  low_52week : ℚ
  pe_ratio : ℚ
  pb_ratio : ℚ
  roe : ℚ
  de_ratio : ℚ
  div_yield : ℚ
  book_value : ℚ
  face_value : String
  eps_ttm : ℚ
  market_cap : ℤ
  volume : ℤ
  currency : String
deriving DecidableEq

/-- `float(info.get(k, 0) or 0)` — the numeric-field extraction used for the
float-valued fields of the returned dict. -/
def floatField (info : Info) (k : String) : Except Unit ℚ :=
  pyFloat (pyOr (dictGet info k (.num 0)) (.num 0))

/-- `int(info.get(k, 0) or 0)` — used for `market_cap` and `volume`. -/
def intField (info : Info) (k : String) : Except Unit ℤ :=
  pyInt (pyOr (dictGet info k (.num 0)) (.num 0))

/-- `str(info.get(k, "N/A"))` — used for `face_value` and `currency`. -/
def strField (info : Info) (k : String) : String :=
  pyStr (dictGet info k (.str "N/A"))

/-- Lines 47–64: build the returned dict from the info mapping. A raise
inside the construction (a non-numeric value reaching `float`/`int`)
propagates out, where `except Exception: continue` (lines 65–66) turns it
into a miss for the current candidate. -/
def normalizeQuote (sym exch : String) (info : Info) : Except Unit NormalizedQuote := do
  let current_price ← floatField info "currentPrice"
  let high_52week ← floatField info "fiftyTwoWeekHigh"
  let low_52week ← floatField info "fiftyTwoWeekLow"
  let pe_ratio ← floatField info "trailingPE"
  let pb_ratio ← floatField info "priceToBook"
  let roe ← floatField info "returnOnEquity"
  let de_ratio ← floatField info "debtToEquity"
  let div_yield ← floatField info "dividendYield"
  let book_value ← floatField info "bookValue"
  let eps_ttm ← floatField info "trailingEps"
  let market_cap ← intField info "marketCap"
  let volume ← intField info "volume"
  pure { symbol := sym, exchange := exch, current_price, high_52week,
         low_52week, pe_ratio, pb_ratio, roe, de_ratio, div_yield, book_value,
         face_value := strField info "lastSplitFactor", eps_ttm, market_cap,
         volume, currency := strField info "currency" }

/-- Result of `get_stock_data`: the quote dict, or the error dict
`{"error": msg}` built at line 67. -/
inductive StockResult where
  | quote (q : NormalizedQuote)
  | error (msg : String)
deriving DecidableEq

/-- One candidate probe — the body of the `for` loop (lines 39–66).
`none` (the loop continues) when the provider raises, when the payload is
empty or lacks the `"currentPrice"` key (line 43), or when the dict
construction raises; `some q` when the candidate matches. -/
def probe (p : Provider) (sym exch : String) : Option NormalizedQuote :=
  match p sym with
  | .raise => Option.none
  | .payload info =>
    if info.isEmpty || (info.lookup "currentPrice").isNone then Option.none
    else
      match normalizeQuote sym exch info with
      | .ok q => Option.some q
      | .error _ => Option.none

/-- Line 34: the candidate suffixes, in priority order. -/
def suffixes : List String := [".NS", ".BO", ""]

/-- Line 35: the exchange labels, parallel to `suffixes`. -/
def exchanges : List String := ["NSE", "BSE", "INTL"]

/-- The `for suffix, exch in zip(suffixes, exchanges)` loop (lines 37–67)
over the remaining candidates, instrumented with the list of symbols for
which the provider was called, in order. `t` is the already-uppercased
ticker; when all candidates miss, the error dict of line 67 names `t`. -/
def resolveLoop (p : Provider) (t : String) :
    List (String × String) → StockResult × List String
  | [] => (.error ("⚠️ Could not fetch data for " ++ t), [])
  | (sfx, exch) :: rest =>
    let sym := t ++ sfx
    match probe p sym exch with
    | Option.some q => (.quote q, [sym])
    | Option.none =>
      let r := resolveLoop p t rest
      (r.1, sym :: r.2)

/-- `get_stock_data` (lines 30–67) together with its provider-call trace:
uppercase the input (line 33), then run the candidate loop. -/
def get_stock_dataT (p : Provider) (ticker : String) : StockResult × List String :=
  resolveLoop p ticker.toUpper (suffixes.zip exchanges)

/-- `get_stock_data`: the returned dict alone. -/
def get_stock_data (p : Provider) (ticker : String) : StockResult :=
  (get_stock_dataT p ticker).1

/-- The symbols `get_stock_data` queried the provider for, in order. -/
def probedSymbols (p : Provider) (ticker : String) : List String :=
  (get_stock_dataT p ticker).2

/-- The memoization cache, keyed by the raw ticker string. -/
abbrev Cache := List (String × StockResult)

/-- Modelled from the spec: the `@st.cache_data` decorator applied at line 30
is library code whose implementation is not part of this repository. Per the
spec, the result "is cached by the original raw query to avoid repeat network
calls for identical input within the process lifetime" (simple memoization,
no eviction). A call first consults the cache under the raw ticker; on a hit
it returns the cached result and makes no provider call, on a miss it runs
`get_stock_data` and stores the result. Returns the result, the list of
provider calls made by this invocation, and the updated cache. -/
def cachedResolve (p : Provider) (cache : Cache) (raw : String) :
    StockResult × List String × Cache :=
  match cache.lookup raw with
  | Option.some r => (r, [], cache)
  | Option.none =>
    let rt := get_stock_dataT p raw
    (rt.1, rt.2, (raw, rt.1) :: cache)

/-- One row of the historical price series returned by
`stock.history(period)`: OHLC and volume, indexed by date. -/
structure HistRow where
  date : ℤ
  openPrice : ℚ
  high : ℚ
  low : ℚ
  close : ℚ
  volume : ℚ
deriving DecidableEq

/-- A stock handle, as a map from the requested period to the historical
price series `stock.history(period)` returns. -/
abbrev Stock := String → List HistRow

/-- `Series.rolling(n).mean()`: entry `i` is the mean of entries
`i - n + 1 .. i`, or `None` (pandas NaN) while fewer than `n` entries are
available. -/
def rollingMean (n : Nat) (xs : List ℚ) : List (Option ℚ) :=
  (List.range xs.length).map fun i =>
    if n ≤ i + 1 then Option.some (((xs.drop (i + 1 - n)).take n).sum / n)
    else Option.none

/-- The figure built by `plot_stock_chart` (lines 107–129): the candlestick
trace, the three moving-average traces, and the volume trace. -/
structure Figure where
  dates : List ℤ
  openPrices : List ℚ
  highs : List ℚ
  lows : List ℚ
  closes : List ℚ
  ma20 : List (Option ℚ)
  ma50 : List (Option ℚ)
  ma200 : List (Option ℚ)
  volumes : List ℚ
deriving DecidableEq

/-- `plot_stock_chart` (lines 97–130): fetch `stock.history(period)`; return
`None` when the history is empty (lines 100–101), otherwise compute MA20,
MA50 and MA200 of the closes and build the figure. -/
def plot_stock_chart (stock : Stock) (period : String) : Option Figure :=
  let hist := stock period
  if hist.isEmpty then Option.none
  else
    let closes := hist.map HistRow.close
    Option.some
      { dates := hist.map HistRow.date
        openPrices := hist.map HistRow.openPrice
        highs := hist.map HistRow.high
        lows := hist.map HistRow.low
        closes := closes
        ma20 := rollingMean 20 closes
        ma50 := rollingMean 50 closes
        ma200 := rollingMean 200 closes
        volumes := hist.map HistRow.volume }

/-! ## Helper functions and lemmas -/

/-- Total version of `floatField`: the extracted value, `0` when the
extraction raises (used only to state what `normalizeQuote` returned when it
did not raise). -/
def floatFieldD (info : Info) (k : String) : ℚ :=
  match floatField info k with
  | .ok x => x
  | .error _ => 0

/-- Total version of `intField`. -/
def intFieldD (info : Info) (k : String) : ℤ :=
  match intField info k with
  | .ok x => x
  | .error _ => 0

/-- `v` is the default-zero coercion of the float field `k` of `info`:
a present numeric value is kept, a null or absent field gives `0`. -/
def numCoerced (info : Info) (k : String) (v : ℚ) : Prop :=
  (∀ x, info.lookup k = Option.some (PyVal.num x) → v = x) ∧
  (info.lookup k = Option.some PyVal.none → v = 0) ∧
  (info.lookup k = Option.none → v = 0)

/-- `v` is the default-zero coercion of the int field `k` of `info`:
a present numeric value is truncated toward zero, a null or absent field
gives `0`. -/
def intCoerced (info : Info) (k : String) (v : ℤ) : Prop :=
  (∀ x, info.lookup k = Option.some (PyVal.num x) → v = truncToward0 x) ∧
  (info.lookup k = Option.some PyVal.none → v = 0) ∧
  (info.lookup k = Option.none → v = 0)

theorem numCoerced_floatFieldD (info : Info) (k : String) :
    numCoerced info k (floatFieldD info k) := by
  refine ⟨fun x hx => ?_, fun hx => ?_, fun hx => ?_⟩
  · by_cases h0 : x = 0 <;>
      simp [floatFieldD, floatField, dictGet, pyOr, PyVal.truthy, pyFloat, hx, h0]
  · simp [floatFieldD, floatField, dictGet, pyOr, PyVal.truthy, pyFloat, hx]
  · simp [floatFieldD, floatField, dictGet, pyOr, PyVal.truthy, pyFloat, hx]

theorem intCoerced_intFieldD (info : Info) (k : String) :
    intCoerced info k (intFieldD info k) := by
  refine ⟨fun x hx => ?_, fun hx => ?_, fun hx => ?_⟩
  · by_cases h0 : x = 0 <;>
      simp [intFieldD, intField, dictGet, pyOr, PyVal.truthy, pyInt, truncToward0, hx, h0]
  · simp [intFieldD, intField, dictGet, pyOr, PyVal.truthy, pyInt, truncToward0, hx]
  · simp [intFieldD, intField, dictGet, pyOr, PyVal.truthy, pyInt, truncToward0, hx]

theorem normalizeQuote_ok_eq (sym exch : String) (info : Info) (q : NormalizedQuote)
    (h : normalizeQuote sym exch info = .ok q) :
    q = { symbol := sym, exchange := exch,
          current_price := floatFieldD info "currentPrice",
          high_52week := floatFieldD info "fiftyTwoWeekHigh",
          low_52week := floatFieldD info "fiftyTwoWeekLow",
          pe_ratio := floatFieldD info "trailingPE",
          pb_ratio := floatFieldD info "priceToBook",
          roe := floatFieldD info "returnOnEquity",
          de_ratio := floatFieldD info "debtToEquity",
          div_yield := floatFieldD info "dividendYield",
          book_value := floatFieldD info "bookValue",
          face_value := strField info "lastSplitFactor",
          eps_ttm := floatFieldD info "trailingEps",
          market_cap := intFieldD info "marketCap",
          volume := intFieldD info "volume",
          currency := strField info "currency" } := by
  unfold normalizeQuote at h
  simp only [bind, Except.bind] at h
  cases h1 : floatField info "currentPrice" <;> rw [h1] at h <;> dsimp only at h <;>
    try exact Except.noConfusion h
  cases h2 : floatField info "fiftyTwoWeekHigh" <;> rw [h2] at h <;> dsimp only at h <;>
    try exact Except.noConfusion h
  cases h3 : floatField info "fiftyTwoWeekLow" <;> rw [h3] at h <;> dsimp only at h <;>
    try exact Except.noConfusion h
  cases h4 : floatField info "trailingPE" <;> rw [h4] at h <;> dsimp only at h <;>
    try exact Except.noConfusion h
  cases h5 : floatField info "priceToBook" <;> rw [h5] at h <;> dsimp only at h <;>
    try exact Except.noConfusion h
  cases h6 : floatField info "returnOnEquity" <;> rw [h6] at h <;> dsimp only at h <;>
    try exact Except.noConfusion h
  cases h7 : floatField info "debtToEquity" <;> rw [h7] at h <;> dsimp only at h <;>
    try exact Except.noConfusion h
  cases h8 : floatField info "dividendYield" <;> rw [h8] at h <;> dsimp only at h <;>
    try exact Except.noConfusion h
  cases h9 : floatField info "bookValue" <;> rw [h9] at h <;> dsimp only at h <;>
    try exact Except.noConfusion h
  cases h10 : floatField info "trailingEps" <;> rw [h10] at h <;> dsimp only at h <;>
    try exact Except.noConfusion h
  cases h11 : intField info "marketCap" <;> rw [h11] at h <;> dsimp only at h <;>
    try exact Except.noConfusion h
  cases h12 : intField info "volume" <;> rw [h12] at h <;> dsimp only at h <;>
    try exact Except.noConfusion h
  simp only [pure, Except.pure, Except.ok.injEq] at h
  subst h
  simp [floatFieldD, intFieldD, h1, h2, h3, h4, h5, h6, h7, h8, h9, h10, h11, h12]

/-- A successful probe carries the exchange label of its candidate. -/
theorem probe_exchange (p : Provider) (sym exch : String) (q : NormalizedQuote)
    (h : probe p sym exch = Option.some q) : q.exchange = exch := by
  unfold probe at h
  cases hp : p sym with
  | raise => rw [hp] at h; exact Option.noConfusion h
  | payload info =>
    rw [hp] at h
    dsimp only at h
    by_cases hg : (info.isEmpty || (info.lookup "currentPrice").isNone) = true
    · rw [if_pos hg] at h; exact Option.noConfusion h
    · rw [if_neg hg] at h
      cases hn : normalizeQuote sym exch info <;> rw [hn] at h <;> dsimp only at h
      · exact Option.noConfusion h
      · injection h with h
        subst h
        rw [normalizeQuote_ok_eq _ _ _ _ hn]

theorem char_toNat_ofNat_valid (n : Nat) (h : n.isValidChar) :
    (Char.ofNat n).toNat = n := by
  unfold Char.ofNat
  rw [dif_pos h]
  rfl

/-- Lowercasing then uppercasing a character is uppercasing it. -/
theorem char_toUpper_toLower (c : Char) : c.toLower.toUpper = c.toUpper := by
  unfold Char.toLower Char.toUpper
  by_cases h : c.toNat ≥ 65 ∧ c.toNat ≤ 90
  · have hv : (c.toNat + 32).isValidChar := Or.inl (by omega)
    have ht : (Char.ofNat (c.toNat + 32)).toNat = c.toNat + 32 :=
      char_toNat_ofNat_valid _ hv
    rw [if_pos h, ht, if_pos (by omega), if_neg (by omega), Nat.add_sub_cancel,
      Char.ofNat_toNat]
  · rw [if_neg h]

/-- Lowercasing then uppercasing a string is uppercasing it. -/
theorem string_toUpper_toLower (s : String) : s.toLower.toUpper = s.toUpper := by
  simp only [String.toUpper, String.toLower, String.map_eq, List.map_map]
  congr 1
  exact List.map_congr_left fun c _ => char_toUpper_toLower c

/-! ## Concrete fixtures used by witnesses and counterexamples -/

/-- A payload holding only a price. -/
def infoPriceOnly : Info := [("currentPrice", PyVal.num 100)]

/-- A provider that answers every symbol with `infoPriceOnly`. -/
def pAlways : Provider := fun _ => .payload infoPriceOnly

/-- What `get_stock_data` normalizes `infoPriceOnly` to for `XYZ.NS`/NSE. -/
def qXYZ : NormalizedQuote :=
  { symbol := "XYZ.NS", exchange := "NSE", current_price := 100, high_52week := 0,
    low_52week := 0, pe_ratio := 0, pb_ratio := 0, roe := 0, de_ratio := 0,
    div_yield := 0, book_value := 0, face_value := "N/A", eps_ttm := 0,
    market_cap := 0, volume := 0, currency := "N/A" }

/-- A provider whose every call raises. -/
def pRaise : Provider := fun _ => .raise

/-- A provider that answers every symbol with an empty payload. -/
def pEmptyPayload : Provider := fun _ => .payload []

/-- A payload with a price and a null `lastSplitFactor`. -/
def infoNullSplit : Info :=
  [("currentPrice", PyVal.num 100), ("lastSplitFactor", PyVal.none)]

/-- A provider that answers every symbol with `infoNullSplit`. -/
def pNullSplit : Provider := fun _ => .payload infoNullSplit

/-- What `get_stock_data` normalizes `infoNullSplit` to for `X.NS`/NSE. -/
def qNullSplit : NormalizedQuote :=
  { symbol := "X.NS", exchange := "NSE", current_price := 100, high_52week := 0,
    low_52week := 0, pe_ratio := 0, pb_ratio := 0, roe := 0, de_ratio := 0,
    div_yield := 0, book_value := 0, face_value := "None", eps_ttm := 0,
    market_cap := 0, volume := 0, currency := "N/A" }

/-- A payload whose `"currentPrice"` key is present but null. -/
def infoNullPrice : Info := [("currentPrice", PyVal.none)]

/-- A provider that answers every symbol with `infoNullPrice`. -/
def pNullPrice : Provider := fun _ => .payload infoNullPrice

/-- What `get_stock_data` normalizes `infoNullPrice` to for `Y.NS`/NSE. -/
def qNullPrice : NormalizedQuote :=
  { symbol := "Y.NS", exchange := "NSE", current_price := 0, high_52week := 0,
    low_52week := 0, pe_ratio := 0, pb_ratio := 0, roe := 0, de_ratio := 0,
    div_yield := 0, book_value := 0, face_value := "N/A", eps_ttm := 0,
    market_cap := 0, volume := 0, currency := "N/A" }

/-- A stock handle with no history for any period. -/
def stockNoHist : Stock := fun _ => []

/-- C1: candidates are probed in the fixed order `.NS`/NSE, `.BO`/BSE,
unsuffixed/INTL; the first candidate whose probe yields a usable payload wins,
later candidates are not probed, and the returned quote carries that
candidate's exchange label. -/
theorem resolver_priority_order (p : Provider) (t : String) :
    (∀ q, probe p (t.toUpper ++ ".NS") "NSE" = Option.some q →
      get_stock_dataT p t = (.quote q, [t.toUpper ++ ".NS"]) ∧
        q.exchange = "NSE") ∧
    (probe p (t.toUpper ++ ".NS") "NSE" = Option.none →
      ∀ q, probe p (t.toUpper ++ ".BO") "BSE" = Option.some q →
        get_stock_dataT p t = (.quote q, [t.toUpper ++ ".NS", t.toUpper ++ ".BO"]) ∧
          q.exchange = "BSE") ∧
    (probe p (t.toUpper ++ ".NS") "NSE" = Option.none →
      probe p (t.toUpper ++ ".BO") "BSE" = Option.none →
      ∀ q, probe p t.toUpper "INTL" = Option.some q →
        get_stock_dataT p t =
          (.quote q, [t.toUpper ++ ".NS", t.toUpper ++ ".BO", t.toUpper]) ∧
          q.exchange = "INTL") := by
  refine ⟨fun q hq => ⟨?_, probe_exchange _ _ _ _ hq⟩,
          fun h1 q hq => ⟨?_, probe_exchange _ _ _ _ hq⟩,
          fun h1 h2 q hq => ⟨?_, probe_exchange _ _ _ _ hq⟩⟩ <;>
    simp [get_stock_dataT, suffixes, exchanges, resolveLoop, *]

/-- Evaluation helper: uppercasing a concrete string. -/
theorem string_toUpper_eq (s t : String) (h : s.data.map Char.toUpper = t.data) :
    s.toUpper = t := by
  cases t
  rw [String.toUpper, String.map_eq]
  exact congrArg String.mk h

/-- C1 witness: a provider succeeding on every form resolves `xyz` on the
`.NS` candidate alone, with exchange NSE. -/
theorem resolver_priority_order_witness :
    get_stock_dataT pAlways "xyz" = (.quote qXYZ, ["XYZ.NS"]) ∧
    NormalizedQuote.exchange qXYZ = "NSE" := by
  have hu : "xyz".toUpper = "XYZ" := string_toUpper_eq _ _ rfl
  have h := (resolver_priority_order pAlways "xyz").1 qXYZ (by rw [hu]; rfl)
  rw [hu] at h
  exact h

/-- C2: a per-candidate exception is a miss for that candidate only; the
resolver reports the line-67 failure value exactly when all three candidates
missed, and always returns a value (a quote or that failure), never an
unhandled error. -/
theorem resolver_exhaustion_failure (p : Provider) (t : String) :
    (get_stock_data p t = .error ("⚠️ Could not fetch data for " ++ t.toUpper) ↔
      (probe p (t.toUpper ++ ".NS") "NSE" = Option.none ∧
       probe p (t.toUpper ++ ".BO") "BSE" = Option.none ∧
       probe p t.toUpper "INTL" = Option.none)) ∧
    (∀ sym exch, p sym = ProviderResp.raise → probe p sym exch = Option.none) ∧
    ((∃ q, get_stock_data p t = .quote q) ∨
      get_stock_data p t = .error ("⚠️ Could not fetch data for " ++ t.toUpper)) := by
  refine ⟨?_, fun sym exch hr => by simp [probe, hr], ?_⟩ <;>
    cases h1 : probe p (t.toUpper ++ ".NS") "NSE" <;>
    cases h2 : probe p (t.toUpper ++ ".BO") "BSE" <;>
    cases h3 : probe p t.toUpper "INTL" <;>
    simp [get_stock_data, get_stock_dataT, suffixes, exchanges, resolveLoop, h1, h2, h3]

/-- C2 witness: with a provider that raises on every call, resolving `zz`
returns the failure value naming the uppercased ticker. -/
theorem resolver_exhaustion_failure_witness :
    get_stock_data pRaise "zz" =
      StockResult.error ("⚠️ Could not fetch data for " ++ "zz".toUpper) :=
  ((resolver_exhaustion_failure pRaise "zz").1).mpr ⟨rfl, rfl, rfl⟩

/-- C3: on a successful normalization every numeric field of the quote is the
default-zero coercion of its provider field — the coerced value when present
and non-null, `0` when absent or null; every numeric field is a total field of
the record, never missing. -/
theorem numeric_field_defaults (sym exch : String) (info : Info) (q : NormalizedQuote)
    (h : normalizeQuote sym exch info = .ok q) :
    numCoerced info "currentPrice" q.current_price ∧
    numCoerced info "fiftyTwoWeekHigh" q.high_52week ∧
    numCoerced info "fiftyTwoWeekLow" q.low_52week ∧
    numCoerced info "trailingPE" q.pe_ratio ∧
    numCoerced info "priceToBook" q.pb_ratio ∧
    numCoerced info "returnOnEquity" q.roe ∧
    numCoerced info "debtToEquity" q.de_ratio ∧
    numCoerced info "dividendYield" q.div_yield ∧
    numCoerced info "bookValue" q.book_value ∧
    numCoerced info "trailingEps" q.eps_ttm ∧
    intCoerced info "marketCap" q.market_cap ∧
    intCoerced info "volume" q.volume := by
  rw [normalizeQuote_ok_eq _ _ _ _ h]
  exact ⟨numCoerced_floatFieldD _ _, numCoerced_floatFieldD _ _,
    numCoerced_floatFieldD _ _, numCoerced_floatFieldD _ _,
    numCoerced_floatFieldD _ _, numCoerced_floatFieldD _ _,
    numCoerced_floatFieldD _ _, numCoerced_floatFieldD _ _,
    numCoerced_floatFieldD _ _, numCoerced_floatFieldD _ _,
    intCoerced_intFieldD _ _, intCoerced_intFieldD _ _⟩

/-- C3 witness: the payload holding only a price normalizes with the price
kept and every other numeric field zero. -/
theorem numeric_field_defaults_witness :
    numCoerced infoPriceOnly "currentPrice"
      (NormalizedQuote.current_price qXYZ) ∧
    numCoerced infoPriceOnly "fiftyTwoWeekHigh"
      (NormalizedQuote.high_52week qXYZ) ∧
    numCoerced infoPriceOnly "fiftyTwoWeekLow"
      (NormalizedQuote.low_52week qXYZ) ∧
    numCoerced infoPriceOnly "trailingPE" (NormalizedQuote.pe_ratio qXYZ) ∧
    numCoerced infoPriceOnly "priceToBook" (NormalizedQuote.pb_ratio qXYZ) ∧
    numCoerced infoPriceOnly "returnOnEquity" (NormalizedQuote.roe qXYZ) ∧
    numCoerced infoPriceOnly "debtToEquity" (NormalizedQuote.de_ratio qXYZ) ∧
    numCoerced infoPriceOnly "dividendYield" (NormalizedQuote.div_yield qXYZ) ∧
    numCoerced infoPriceOnly "bookValue" (NormalizedQuote.book_value qXYZ) ∧
    numCoerced infoPriceOnly "trailingEps" (NormalizedQuote.eps_ttm qXYZ) ∧
    intCoerced infoPriceOnly "marketCap" (NormalizedQuote.market_cap qXYZ) ∧
    intCoerced infoPriceOnly "volume" (NormalizedQuote.volume qXYZ) :=
  numeric_field_defaults "XYZ.NS" "NSE" infoPriceOnly qXYZ rfl

/-- C4: an empty payload, a payload without the `"currentPrice"` key, and a
raising call are all classified as a miss, and a missed candidate makes the
loop continue with the remaining candidates. -/
theorem empty_or_keyless_payload_is_miss (p : Provider) (sym exch : String) :
    (p sym = ProviderResp.payload [] → probe p sym exch = Option.none) ∧
    (∀ info, p sym = ProviderResp.payload info →
      info.lookup "currentPrice" = Option.none → probe p sym exch = Option.none) ∧
    (p sym = ProviderResp.raise → probe p sym exch = Option.none) ∧
    (∀ t sfx rest, probe p (t ++ sfx) exch = Option.none →
      resolveLoop p t ((sfx, exch) :: rest) =
        ((resolveLoop p t rest).1, (t ++ sfx) :: (resolveLoop p t rest).2)) := by
  refine ⟨fun h => by simp [probe, h],
          fun info h hk => by simp [probe, h, hk],
          fun h => by simp [probe, h],
          fun t sfx rest h => by simp [resolveLoop, h]⟩

/-- C4 witness: a provider returning an empty payload misses on `AAA.NS`. -/
theorem empty_or_keyless_payload_is_miss_witness :
    probe pEmptyPayload "AAA.NS" "NSE" = Option.none :=
  (empty_or_keyless_payload_is_miss pEmptyPayload "AAA.NS" "NSE").1 rfl

/-- C5: the resolver is case-insensitive — resolving a ticker and resolving
its lowercasing give the same result and the same provider calls, because the
input is uppercased before any candidate symbol is formed. -/
theorem resolver_case_insensitive (p : Provider) (t : String) :
    get_stock_dataT p t = get_stock_dataT p t.toLower := by
  unfold get_stock_dataT
  rw [string_toUpper_toLower]

/-- C6 counterexample: a payload whose `lastSplitFactor` is present but null
resolves successfully with `face_value = "None"`, not the sentinel `"N/A"`
the claim requires for null fields (Python `str(None)` is `"None"`). -/
theorem string_sentinel_counterexample :
    List.lookup "lastSplitFactor" infoNullSplit = Option.some PyVal.none ∧
    get_stock_data pNullSplit "x" = StockResult.quote qNullSplit ∧
    NormalizedQuote.face_value qNullSplit = "None" ∧ "None" ≠ "N/A" := by
  have hu : "x".toUpper = "X" := string_toUpper_eq _ _ rfl
  refine ⟨rfl, ?_, rfl, by decide⟩
  unfold get_stock_data get_stock_dataT
  rw [hu]
  rfl

/-- C6 (amended): on a successful normalization a string field equals the
sentinel `"N/A"` when the provider field is absent, and equals Python's
`str()` of the provider value when present — so a null value yields `"None"`,
not `"N/A"`. -/
theorem string_field_coercion (sym exch : String) (info : Info) (q : NormalizedQuote)
    (h : normalizeQuote sym exch info = .ok q) :
    (info.lookup "lastSplitFactor" = Option.none → q.face_value = "N/A") ∧
    (∀ v, info.lookup "lastSplitFactor" = Option.some v → q.face_value = pyStr v) ∧
    (info.lookup "currency" = Option.none → q.currency = "N/A") ∧
    (∀ v, info.lookup "currency" = Option.some v → q.currency = pyStr v) ∧
    pyStr PyVal.none = "None" := by
  rw [normalizeQuote_ok_eq _ _ _ _ h]
  refine ⟨fun hk => ?_, fun v hk => ?_, fun hk => ?_, fun v hk => ?_, rfl⟩ <;>
    simp [strField, dictGet, pyStr, hk]

/-- C6 witness: on `infoNullSplit` the present-but-null `lastSplitFactor`
coerces to `str(None)` and the absent `currency` to the sentinel. -/
theorem string_field_coercion_witness :
    NormalizedQuote.face_value qNullSplit = pyStr PyVal.none ∧
    NormalizedQuote.currency qNullSplit = "N/A" := by
  have h := string_field_coercion "X.NS" "NSE" infoNullSplit qNullSplit rfl
  exact ⟨h.2.1 PyVal.none rfl, h.2.2.1 rfl⟩

/-- C7 counterexample: resolving the lowercase ticker `zzzz` against an
always-raising provider produces the failure message naming `ZZZZ`, the
uppercased ticker, not the original query string `zzzz`. -/
theorem failure_original_ticker_counterexample :
    get_stock_data pRaise "zzzz" =
      StockResult.error "⚠️ Could not fetch data for ZZZZ" ∧
    get_stock_data pRaise "zzzz" ≠
      StockResult.error "⚠️ Could not fetch data for zzzz" := by
  have hu : "zzzz".toUpper = "ZZZZ" := string_toUpper_eq _ _ rfl
  constructor
  · unfold get_stock_data get_stock_dataT
    rw [hu]
    rfl
  · unfold get_stock_data get_stock_dataT
    rw [hu]
    decide

/-- C7 (amended): when every candidate misses, the returned failure carries
the uppercased ticker (line 33 reassigns `ticker` before line 67 uses it). -/
theorem failure_names_uppercased_ticker (p : Provider) (t : String)
    (h1 : probe p (t.toUpper ++ ".NS") "NSE" = Option.none)
    (h2 : probe p (t.toUpper ++ ".BO") "BSE" = Option.none)
    (h3 : probe p t.toUpper "INTL" = Option.none) :
    get_stock_data p t = .error ("⚠️ Could not fetch data for " ++ t.toUpper) := by
  simp [get_stock_data, get_stock_dataT, suffixes, exchanges, resolveLoop, h1, h2, h3]

/-- C7 witness: the amended statement at the always-raising provider. -/
theorem failure_names_uppercased_ticker_witness :
    get_stock_data pRaise "abc" =
      StockResult.error ("⚠️ Could not fetch data for " ++ "abc".toUpper) :=
  failure_names_uppercased_ticker pRaise "abc" rfl rfl rfl

/-- C8: re-invoking the cached resolver with the identical raw ticker returns
the previously computed result, makes no provider call, and leaves the cache
unchanged. -/
theorem cache_hit_no_second_call (p : Provider) (c : Cache) (raw : String) :
    cachedResolve p (cachedResolve p c raw).2.2 raw =
      ((cachedResolve p c raw).1, [], (cachedResolve p c raw).2.2) := by
  unfold cachedResolve
  cases hc : c.lookup raw <;> simp [hc, List.lookup]

/-- C9: an empty historical price series yields `None` from the chart
renderer — no figure, no moving averages, no exception. -/
theorem empty_history_yields_no_chart (stock : Stock) (period : String)
    (h : stock period = []) : plot_stock_chart stock period = Option.none := by
  simp [plot_stock_chart, h]

/-- C9 witness: a stock handle with no history renders no chart. -/
theorem empty_history_yields_no_chart_witness :
    plot_stock_chart stockNoHist "6mo" = Option.none :=
  empty_history_yields_no_chart stockNoHist "6mo" rfl

/-- C10: the line-43 match decision looks only at the presence of
`"currentPrice"`: with the key present but null (or zero) the gate passes,
the candidate is accepted whenever normalization succeeds, and the resulting
`current_price` is `0`, indistinguishable from a true zero price. -/
theorem match_decision_key_presence_only (p : Provider) (sym exch : String)
    (info : Info) (hp : p sym = ProviderResp.payload info)
    (hk : info.lookup "currentPrice" = Option.some PyVal.none ∨
      info.lookup "currentPrice" = Option.some (PyVal.num 0)) :
    (info.isEmpty || (info.lookup "currentPrice").isNone) = false ∧
    ∀ q, normalizeQuote sym exch info = .ok q →
      probe p sym exch = Option.some q ∧ q.current_price = 0 := by
  have hne : info.isEmpty = false := by
    cases hk with
    | inl h =>
      cases info with
      | nil => simp [List.lookup] at h
      | cons a l => rfl
    | inr h =>
      cases info with
      | nil => simp [List.lookup] at h
      | cons a l => rfl
  have hgate : (info.isEmpty || (info.lookup "currentPrice").isNone) = false := by
    cases hk <;> simp [hne, *]
  refine ⟨hgate, fun q hq => ⟨?_, ?_⟩⟩
  · simp [probe, hp, hgate, hq]
  · rw [normalizeQuote_ok_eq _ _ _ _ hq]
    cases hk with
    | inl h => exact (numCoerced_floatFieldD info "currentPrice").2.1 h
    | inr h => exact (numCoerced_floatFieldD info "currentPrice").1 0 h

/-- C10 witness: a payload whose only entry is a null `currentPrice` passes
the gate, matches, and yields a quote with price `0`. -/
theorem match_decision_key_presence_only_witness :
    (List.isEmpty infoNullPrice ||
      (List.lookup "currentPrice" infoNullPrice).isNone) = false ∧
    probe pNullPrice "Y.NS" "NSE" = Option.some qNullPrice ∧
    NormalizedQuote.current_price qNullPrice = 0 := by
  obtain ⟨hg, hrest⟩ :=
    match_decision_key_presence_only pNullPrice "Y.NS" "NSE" infoNullPrice rfl
      (Or.inl rfl)
  obtain ⟨hpq, hcp⟩ := hrest qNullPrice rfl
  exact ⟨hg, hpq, hcp⟩
